import Mathlib

/-!
Shallow embedding of the `dl-pipe` resumable-download engine
(`zeta-chain/dl-pipe`): the retry/backoff policy (`RetryParameters.Wait`),
the range-resume protocol driver (`runInner`), the download loop (`run`)
and the option/finalization machinery (`DownloadURL`, `WithExpectedHash`).

Machine integers: Go `uint64` positions are modelled as `Nat` with the
wrap of `prevPos + oneMB` made explicit (`% 2^64`), Go `int64` values
(durations, counters, content lengths) as `Int`; `fmt.Sscanf` with `%d`
rejects values outside the `int64` range, which the parser models.
-/

namespace DlPipe

/-- The constant `oneMB = 1 << 20`, the forward-progress threshold in bytes. -/
def oneMB : Nat := 1 <<< 20

/-- Modulus of Go's `uint64` arithmetic. -/
def U64 : Nat := 2 ^ 64

/-- Go `uint64(x)` conversion of an `int64` value. -/
def uint64OfInt (x : Int) : Nat := (x % (U64 : Int)).toNat

/-- The `RetryParameters` struct: configuration (`MaxRetries`, `BaseWait`,
`WaitMultiplier`) plus the mutable retry state (`currentWait`, `retryCtr`,
`prevPos`). Durations are `int64` nanoseconds, `prevPos` is a `uint64`. -/
structure RetryParameters where
  MaxRetries : Int
  BaseWait : Int
  WaitMultiplier : Int
  currentWait : Int
  retryCtr : Int
  prevPos : Nat
deriving DecidableEq

/-- Outcome of one call to `Wait`: slept and may retry (`ok`), the caller's
context fired first (`canceled`), or `ErrRetryParametersExceeded`. -/
inductive WaitOutcome where
  | ok
  | canceled
  | exceeded
deriving DecidableEq

/-- The method `(*RetryParameters).Wait(ctx, currentPosition)`. `ctxDone` models
whether `ctx.Done()` fires before the `time.After` timer. Returns the
outcome together with the updated (mutated) receiver. -/
def RetryParameters.Wait (p : RetryParameters) (ctxDone : Bool) (currentPosition : Nat) :
    WaitOutcome × RetryParameters :=
  if p.MaxRetries ≤ p.retryCtr then
    (WaitOutcome.exceeded, p)
  else
    -- reset wait period if first read or we are making sufficient progress
    let cw := if p.currentWait = 0 ∨ (p.prevPos ≠ 0 ∧ (p.prevPos + oneMB) % U64 < currentPosition)
      then p.BaseWait else p.currentWait
    let outcome := if ctxDone then WaitOutcome.canceled else WaitOutcome.ok
    -- the deferred increment and multiplication run on both select branches
    (outcome,
      { p with
        prevPos := currentPosition
        retryCtr := p.retryCtr + 1
        currentWait := cw * p.WaitMultiplier })

/-- The `DefaultRetryParameters()` value: 5 retries, 250ms base (in nanoseconds),
multiplier 2. -/
def DefaultRetryParameters : RetryParameters :=
  { MaxRetries := 5
    BaseWait := 250000000
    WaitMultiplier := 2
    currentWait := 0
    retryCtr := 0
    prevPos := 0 }

/-! ### Content-Range parsing (`fmt.Sscanf` with format `bytes %d-%d/%d`) -/

/-- Whitespace characters skipped by the scanner. -/
def isScanSpace (c : Char) : Bool :=
  c = ' ' ∨ c = '\t' ∨ c = '\n' ∨ c = '\r'

/-- Skip leading whitespace, as `%d` (and a space in the format) does. -/
def skipSpaces : List Char → List Char
  | [] => []
  | c :: cs => if isScanSpace c then skipSpaces cs else c :: cs

/-- Take the longest leading run of decimal digits. -/
def takeDigits : List Char → List Char × List Char
  | [] => ([], [])
  | c :: cs =>
    if c.isDigit then
      let (ds, rest) := takeDigits cs
      (c :: ds, rest)
    else ([], c :: cs)

/-- Value of a digit string. -/
def digitsToNat (ds : List Char) : Nat :=
  ds.foldl (fun acc c => acc * 10 + (c.toNat - 48)) 0

def int64Min : Int := -(2 ^ 63)

def int64Max : Int := 2 ^ 63 - 1

/-- Scan one `%d` verb into an `int64`: skip leading spaces, optional sign,
one or more digits; values outside the `int64` range are a scan error. -/
def scanInt (cs : List Char) : Option (Int × List Char) :=
  match skipSpaces cs with
  | '-' :: rest =>
    match takeDigits rest with
    | ([], _) => none
    | (ds, rest2) =>
      if -(digitsToNat ds : Int) < int64Min then none
      else some (-(digitsToNat ds : Int), rest2)
  | '+' :: rest =>
    match takeDigits rest with
    | ([], _) => none
    | (ds, rest2) =>
      if int64Max < (digitsToNat ds : Int) then none
      else some ((digitsToNat ds : Int), rest2)
  | other =>
    match takeDigits other with
    | ([], _) => none
    | (ds, rest2) =>
      if int64Max < (digitsToNat ds : Int) then none
      else some ((digitsToNat ds : Int), rest2)

/-- Match one literal character of the format string. -/
def expectChar (c : Char) : List Char → Option (List Char)
  | [] => none
  | c2 :: cs => if c2 = c then some cs else none

/-- Match a literal run of format characters. -/
def expectLit : List Char → List Char → Option (List Char)
  | [], cs => some cs
  | l :: ls, cs =>
    match expectChar l cs with
    | none => none
    | some cs2 => expectLit ls cs2

/-- Model of `fmt.Sscanf(s, "bytes %d-%d/%d", &start, &end, &total)`: `some` of the
three scanned `int64` values when all three scan, `none` on a scan error
(the caller lowercases `s` first, mirroring `strings.ToLower`). -/
def parseContentRange (s : String) : Option (Int × Int × Int) :=
  match expectLit "bytes".data s.data with
  | none => none
  | some cs =>
    match scanInt cs with
    | none => none
    | some (a, cs) =>
      match expectChar '-' cs with
      | none => none
      | some cs =>
        match scanInt cs with
        | none => none
        | some (b, cs) =>
          match expectChar '/' cs with
          | none => none
          | some cs =>
            match scanInt cs with
            | none => none
            | some (c, _) => some (a, b, c)

/-! ### The protocol driver and download loop -/

/-- An outgoing request: the configured headers plus the optional
`Range: bytes=<offset>-` header (`some offset` when the header is set). -/
structure Request where
  headers : List (String × String)
  range : Option Nat
deriving DecidableEq

/-- An HTTP response as the driver observes it: status code, the declared
`resp.ContentLength` (an `int64`, `-1` when unknown), the raw
`Content-Range` header value, the body bytes that `io.Copy` receives, and
whether the copy ends in a mid-stream error (`interrupt`) rather than EOF. -/
structure ServerResponse where
  status : Nat
  contentLength : Int
  contentRange : String
  body : List Nat
  interrupt : Bool
deriving DecidableEq

/-- Result of `httpClient.Do`: a response, or a transport error. -/
inductive ServerReply where
  | ok (resp : ServerResponse)
  | netErr
deriving DecidableEq

/-- The errors the engine can surface, mirroring the Go error values:
`NonRetryableWrapf` sites, the plain `fmt.Errorf` sites (`doRequest`,
`badGateway`), `ErrRetryParametersExceeded`, `ctx.Err()`,
`ErrHashMismatch`, plus `fuelOut` marking exhaustion of loop fuel in the
model. -/
inductive DLError where
  | createRequest
  | doRequest
  | badGateway
  | firstStatus (code : Nat)
  | subsequentStatus (code : Nat)
  | parseRange
  | rangeStart (expected : Nat) (got : Int)
  | rangeEnd (expected : Int) (got : Int)
  | rangeTotal (expected : Int) (got : Int)
  | retryExceeded
  | canceled
  | hashMismatch (expected given : List Nat)
  | fuelOut
deriving DecidableEq

/-- Model of `strings.ToLower` restricted to ASCII, which is all a Content-Range
header contains. -/
def lowerString (s : String) : String := ⟨s.data.map Char.toLower⟩

/-- Whether an error is wrapped in `ErrNonRetryable` in the source. -/
def DLError.isNonRetryable : DLError → Bool
  | .createRequest => true
  | .firstStatus _ => true
  | .subsequentStatus _ => true
  | .parseRange => true
  | .rangeStart _ _ => true
  | .rangeEnd _ _ => true
  | .rangeTotal _ _ => true
  | _ => false

/-- The `downloader` struct together with the state of the writer chain:
`count` is `writer.Count()`, `dest` the bytes committed to the destination
sink, `hashed` the bytes fed to the hashers attached by `io.MultiWriter`
(never reset between attempts), `contentLength` the recorded length,
`finalFuncs` the registered finalization checks (each a function of the
bytes the hashers have seen), and `requests`/`reqLog` count and record the
HTTP requests issued. -/
structure Downloader where
  headers : List (String × String)
  count : Nat
  dest : List Nat
  hashed : List Nat
  contentLength : Int
  retry : RetryParameters
  finalFuncs : List (List Nat → Option DLError)
  requests : Nat
  reqLog : List Request

/-- Build the request of one attempt: the configured headers, and the
`Range` header exactly when `writer.Count() > 0`. -/
def buildRequest (d : Downloader) : Request :=
  { headers := d.headers
    range := if 0 < d.count then some d.count else none }

/-- The body of `runInner` after the HTTP exchange: given the reply, validate it
(502 check, first-read branch when no content length is recorded,
partial-content branch with Content-Range validation otherwise) and
return the updated downloader with the verdict. -/
def runInnerCore (d : Downloader) (req : Request) (reply : ServerReply) :
    Downloader × Except DLError ServerResponse :=
  let d1 : Downloader := { d with requests := d.requests + 1, reqLog := d.reqLog ++ [req] }
  match reply with
  | ServerReply.netErr => (d1, Except.error DLError.doRequest)
  | ServerReply.ok resp =>
    if resp.status = 502 then (d1, Except.error DLError.badGateway)
    else if d.contentLength = 0 then
      let d2 : Downloader := { d1 with contentLength := resp.contentLength }
      if resp.status ≠ 200 then (d2, Except.error (DLError.firstStatus resp.status))
      else (d2, Except.ok resp)
    else if resp.status ≠ 206 then (d1, Except.error (DLError.subsequentStatus resp.status))
    else
      match parseContentRange (lowerString resp.contentRange) with
      | none => (d1, Except.error DLError.parseRange)
      | some (s, e, t) =>
        if uint64OfInt s ≠ d.count then
          (d1, Except.error (DLError.rangeStart d.count s))
        else if e ≠ d.contentLength - 1 then
          (d1, Except.error (DLError.rangeEnd (d.contentLength - 1) e))
        else if t ≠ d.contentLength then
          -- the source's error message also prints contentLength-1 as the
          -- expected total, though the comparison is against contentLength
          (d1, Except.error (DLError.rangeTotal (d.contentLength - 1) t))
        else (d1, Except.ok resp)

/-- The method `(*downloader).runInner`: build the request, consult the server
(indexed by how many requests were issued before) and validate. -/
def runInner (d : Downloader) (server : Nat → Request → ServerReply) :
    Downloader × Except DLError ServerResponse :=
  runInnerCore d (buildRequest d) (server d.requests (buildRequest d))

/-- One write through the tracked transform chain: the bytes reach the
destination and every attached hasher, and the counter advances. -/
def writeBytes (d : Downloader) (buf : List Nat) : Downloader :=
  { d with
    dest := d.dest ++ buf
    hashed := d.hashed ++ buf
    count := d.count + buf.length }

/-- Run the finalization checks in registration order; the first `some`
error aborts the remaining checks. -/
def runChecks : List (Option DLError) → Option DLError
  | [] => none
  | none :: rest => runChecks rest
  | some e :: _ => some e

/-- The finalization loop at the end of `run`. -/
def finalize (d : Downloader) : Except DLError Unit :=
  match runChecks (d.finalFuncs.map (fun f => f d.hashed)) with
  | none => Except.ok ()
  | some e => Except.error e

/-- The method `(*downloader).run`: the driver loop. Any `runInner` error returns
immediately; a clean copy breaks to finalization; a copy interruption
consults `retryParameters.Wait` and loops. `fuel` bounds the number of
attempts in the model. -/
def runLoop : Nat → Downloader → (Nat → Request → ServerReply) →
    Downloader × Except DLError Unit
  | 0, d, _ => (d, Except.error DLError.fuelOut)
  | fuel + 1, d, server =>
    match runInner d server with
    | (d1, Except.error e) => (d1, Except.error e)
    | (d1, Except.ok resp) =>
      let d2 := writeBytes d1 resp.body
      if resp.interrupt then
        match d2.retry.Wait false d2.count with
        | (WaitOutcome.ok, p) => runLoop fuel { d2 with retry := p } server
        | (WaitOutcome.canceled, p) => ({ d2 with retry := p }, Except.error DLError.canceled)
        | (WaitOutcome.exceeded, p) => ({ d2 with retry := p }, Except.error DLError.retryExceeded)
      else
        (d2, finalize d2)

/-! ### Options and `DownloadURL` -/

/-- The check registered by `WithExpectedHash`: compare the digest of the
bytes the hasher has seen against the expected digest. -/
def expectedHashCheck (hashFn : List Nat → List Nat) (expected : List Nat) :
    List Nat → Option DLError :=
  fun hashed =>
    let given := hashFn hashed
    if given = expected then none
    else some (DLError.hashMismatch expected given)

/-- The option `WithExpectedHash(hasher, expected)`: attach the hasher to the write
fan-out (every written byte already reaches `hashed`) and register the
digest comparison as a finalization check. -/
def withExpectedHash (hashFn : List Nat → List Nat) (expected : List Nat) :
    Downloader → Downloader :=
  fun d => { d with finalFuncs := d.finalFuncs ++ [expectedHashCheck hashFn expected] }

/-- The option `WithHeaders`. -/
def withHeaders (hs : List (String × String)) : Downloader → Downloader :=
  fun d => { d with headers := hs }

/-- The option `WithRetryParameters`. -/
def withRetryParameters (p : RetryParameters) : Downloader → Downloader :=
  fun d => { d with retry := p }

/-- The downloader as `DownloadURL` constructs it before applying options. -/
def freshDownloader : Downloader :=
  { headers := []
    count := 0
    dest := []
    hashed := []
    contentLength := 0
    retry := DefaultRetryParameters
    finalFuncs := []
    requests := 0
    reqLog := [] }

/-- The option-application loop of `DownloadURL`: a `nil` entry (`none`)
is skipped, any other entry is applied in order. -/
def applyOpts (opts : List (Option (Downloader → Downloader))) (d : Downloader) : Downloader :=
  opts.foldl (fun d o => match o with | none => d | some f => f d) d

/-- The entry point `DownloadURL`: build the downloader, apply the options skipping `nil`
entries, and run the driver loop against the given server. -/
def downloadURL (fuel : Nat) (server : Nat → Request → ServerReply)
    (opts : List (Option (Downloader → Downloader))) :
    Downloader × Except DLError Unit :=
  runLoop fuel (applyOpts opts freshDownloader) server

/-! ### Theorems: retry/backoff policy -/

/-- Helper: one `Wait` call preserves `retryCtr ≤ MaxRetries`. -/
theorem wait_preserves_ctr_le (p : RetryParameters) (cd : Bool) (pos : Nat)
    (h : p.retryCtr ≤ p.MaxRetries) :
    ((p.Wait cd pos).2).retryCtr ≤ ((p.Wait cd pos).2).MaxRetries := by
  unfold RetryParameters.Wait
  by_cases hm : p.MaxRetries ≤ p.retryCtr
  · simp [hm]; omega
  · simp [hm]; omega

/-- C7: `Wait` with the retry counter at (or past) the maximum returns the
retry-budget-exceeded outcome with the state untouched, and consequently
the counter never exceeds the maximum over any sequence of calls starting
from a state satisfying the invariant. -/
theorem wait_exceeded_immediate_and_ctr_invariant
    (p q : RetryParameters) (cd : Bool) (pos : Nat) (calls : List (Bool × Nat))
    (hp : p.MaxRetries ≤ p.retryCtr) (hq : q.retryCtr ≤ q.MaxRetries) :
    p.Wait cd pos = (WaitOutcome.exceeded, p) ∧
    (calls.foldl (fun r c => (r.Wait c.1 c.2).2) q).retryCtr ≤
      (calls.foldl (fun r c => (r.Wait c.1 c.2).2) q).MaxRetries := by
  constructor
  · unfold RetryParameters.Wait
    simp [hp]
  · induction calls generalizing q with
    | nil => exact hq
    | cons c rest ih =>
      exact ih _ (wait_preserves_ctr_le q c.1 c.2 hq)

/-- C7 witness. -/
theorem wait_exceeded_immediate_and_ctr_invariant_witness :
    ({ MaxRetries := 5, BaseWait := 2, WaitMultiplier := 2, currentWait := 0,
       retryCtr := 5, prevPos := 0 : RetryParameters }.MaxRetries ≤ 5) ∧
    (DefaultRetryParameters.retryCtr ≤ DefaultRetryParameters.MaxRetries) ∧
    (({ MaxRetries := 5, BaseWait := 2, WaitMultiplier := 2, currentWait := 0,
        retryCtr := 5, prevPos := 0 : RetryParameters }.Wait false 7 =
      (WaitOutcome.exceeded,
       { MaxRetries := 5, BaseWait := 2, WaitMultiplier := 2, currentWait := 0,
         retryCtr := 5, prevPos := 0 })) ∧
     (([(false, 3), (true, 9)] : List (Bool × Nat)).foldl
        (fun r c => (r.Wait c.1 c.2).2) DefaultRetryParameters).retryCtr ≤
      (([(false, 3), (true, 9)] : List (Bool × Nat)).foldl
        (fun r c => (r.Wait c.1 c.2).2) DefaultRetryParameters).MaxRetries) :=
  ⟨by decide, by decide,
    wait_exceeded_immediate_and_ctr_invariant _ DefaultRetryParameters false 7
      [(false, 3), (true, 9)] (by decide) (by decide)⟩

/-- C8: every `Wait` call that does not signal budget exhaustion — the
canceled early return included — increments the counter by one, records
the given position, multiplies the (possibly reset) backoff by the
multiplier, and leaves the configuration fields alone. -/
theorem wait_mutation_on_non_exceeded (p : RetryParameters) (cd : Bool) (pos : Nat)
    (h : (p.Wait cd pos).1 ≠ WaitOutcome.exceeded) :
    ((p.Wait cd pos).2).retryCtr = p.retryCtr + 1 ∧
    ((p.Wait cd pos).2).prevPos = pos ∧
    ((p.Wait cd pos).2).currentWait =
      (if p.currentWait = 0 ∨ (p.prevPos ≠ 0 ∧ (p.prevPos + oneMB) % U64 < pos)
        then p.BaseWait else p.currentWait) * p.WaitMultiplier ∧
    ((p.Wait cd pos).2).MaxRetries = p.MaxRetries ∧
    ((p.Wait cd pos).2).BaseWait = p.BaseWait ∧
    ((p.Wait cd pos).2).WaitMultiplier = p.WaitMultiplier ∧
    (cd = true → (p.Wait cd pos).1 = WaitOutcome.canceled) := by
  unfold RetryParameters.Wait at *
  by_cases hm : p.MaxRetries ≤ p.retryCtr
  · simp [hm] at h
  · simp [hm]

/-- C8 witness (a canceled call at the default parameters). -/
theorem wait_mutation_on_non_exceeded_witness :
    ((DefaultRetryParameters.Wait true 42).1 ≠ WaitOutcome.exceeded) ∧
    (((DefaultRetryParameters.Wait true 42).2).retryCtr = DefaultRetryParameters.retryCtr + 1 ∧
     ((DefaultRetryParameters.Wait true 42).2).prevPos = 42 ∧
     ((DefaultRetryParameters.Wait true 42).2).currentWait =
       (if DefaultRetryParameters.currentWait = 0 ∨
           (DefaultRetryParameters.prevPos ≠ 0 ∧
             (DefaultRetryParameters.prevPos + oneMB) % U64 < 42)
         then DefaultRetryParameters.BaseWait else DefaultRetryParameters.currentWait) *
         DefaultRetryParameters.WaitMultiplier ∧
     ((DefaultRetryParameters.Wait true 42).2).MaxRetries = DefaultRetryParameters.MaxRetries ∧
     ((DefaultRetryParameters.Wait true 42).2).BaseWait = DefaultRetryParameters.BaseWait ∧
     ((DefaultRetryParameters.Wait true 42).2).WaitMultiplier =
       DefaultRetryParameters.WaitMultiplier ∧
     (true = true → (DefaultRetryParameters.Wait true 42).1 = WaitOutcome.canceled)) :=
  ⟨by decide, wait_mutation_on_non_exceeded DefaultRetryParameters true 42 (by decide)⟩

/-- C6 counterexample: a first wait at position 0 records `prevPos = 0`;
at the next call the position has advanced by 2 MiB — more than 1 MiB
beyond the recorded position, and not the first wait ever — yet the
backoff is not reset to the base (the result is `currentWait * multiplier
= 18`, not `BaseWait * multiplier = 6`), because the code additionally
requires the recorded position to be nonzero. -/
theorem wait_reset_skipped_at_prevPos_zero :
    ((({ MaxRetries := 5, BaseWait := 2, WaitMultiplier := 3, currentWait := 0,
         retryCtr := 0, prevPos := 0 : RetryParameters }.Wait false 0).2).prevPos = 0 ∧
     (({ MaxRetries := 5, BaseWait := 2, WaitMultiplier := 3, currentWait := 0,
         retryCtr := 0, prevPos := 0 : RetryParameters }.Wait false 0).2).retryCtr = 1) ∧
    0 + oneMB < 2 * oneMB ∧
    ((((({ MaxRetries := 5, BaseWait := 2, WaitMultiplier := 3, currentWait := 0,
           retryCtr := 0, prevPos := 0 : RetryParameters }.Wait false 0).2).Wait
         false (2 * oneMB)).2).currentWait = 18 ∧
     (2 : Int) * 3 = 6 ∧ (18 : Int) ≠ 6) := by
  decide

/-- C6 (amended): for a call below the retry maximum, the backoff is reset
to the base exactly when the stored backoff is zero (as on the first wait
ever) or when the previously recorded position is nonzero and the current
position exceeds it by more than 1 MiB; the multiplier is then applied to
the resulting value. -/
theorem wait_reset_condition (p : RetryParameters) (cd : Bool) (pos : Nat)
    (h : p.retryCtr < p.MaxRetries) :
    ((p.Wait cd pos).2).currentWait =
      (if p.currentWait = 0 ∨ (p.prevPos ≠ 0 ∧ (p.prevPos + oneMB) % U64 < pos)
        then p.BaseWait else p.currentWait) * p.WaitMultiplier ∧
    (p.Wait cd pos).1 ≠ WaitOutcome.exceeded := by
  unfold RetryParameters.Wait
  have hm : ¬ p.MaxRetries ≤ p.retryCtr := by omega
  by_cases hcd : cd = true
  · simp [hm, hcd]
  · simp [hm, hcd]

/-- C6 witness: a non-first wait with more than 1 MiB of progress past a
nonzero recorded position does reset to the base before multiplying. -/
theorem wait_reset_condition_witness :
    ({ MaxRetries := 5, BaseWait := 2, WaitMultiplier := 3, currentWait := 40,
       retryCtr := 1, prevPos := 1 : RetryParameters }.retryCtr < 5) ∧
    ((({ MaxRetries := 5, BaseWait := 2, WaitMultiplier := 3, currentWait := 40,
         retryCtr := 1, prevPos := 1 : RetryParameters }.Wait false (2 * oneMB)).2).currentWait =
      (if (40 : Int) = 0 ∨ ((1 : Nat) ≠ 0 ∧ (1 + oneMB) % U64 < 2 * oneMB)
        then (2 : Int) else 40) * 3 ∧
     (({ MaxRetries := 5, BaseWait := 2, WaitMultiplier := 3, currentWait := 40,
         retryCtr := 1, prevPos := 1 : RetryParameters }.Wait false (2 * oneMB)).1 ≠
       WaitOutcome.exceeded)) :=
  ⟨by decide,
   wait_reset_condition
     { MaxRetries := 5, BaseWait := 2, WaitMultiplier := 3, currentWait := 40,
       retryCtr := 1, prevPos := 1 } false (2 * oneMB) (by decide)⟩

/-! ### Supporting lemmas for the driver theorems -/

/-- A value produced by one `%d` scan lies in the `int64` range. -/
theorem scanInt_bounds (cs : List Char) (v : Int) (rest : List Char)
    (h : scanInt cs = some (v, rest)) : int64Min ≤ v ∧ v ≤ int64Max := by
  unfold scanInt at h
  split at h
  all_goals
    split at h
    · exact absurd h (by simp)
    · split at h
      · exact absurd h (by simp)
      · simp only [Option.some.injEq, Prod.mk.injEq] at h
        simp only [int64Min, int64Max] at *
        omega

/-- The scanned `start` of a parsed Content-Range lies in the `int64`
range. -/
theorem parseContentRange_start_bounds (s : String) (a b c : Int)
    (h : parseContentRange s = some (a, b, c)) : int64Min ≤ a ∧ a ≤ int64Max := by
  unfold parseContentRange at h
  cases h1 : expectLit "bytes".data s.data with
  | none => rw [h1] at h; exact absurd h (by simp)
  | some cs1 =>
    rw [h1] at h
    dsimp only at h
    cases h2 : scanInt cs1 with
    | none => rw [h2] at h; exact absurd h (by simp)
    | some p1 =>
      rw [h2] at h
      obtain ⟨v1, cs2⟩ := p1
      dsimp only at h
      cases h3 : expectChar '-' cs2 with
      | none => rw [h3] at h; exact absurd h (by simp)
      | some cs3 =>
        rw [h3] at h
        dsimp only at h
        cases h4 : scanInt cs3 with
        | none => rw [h4] at h; exact absurd h (by simp)
        | some p2 =>
          rw [h4] at h
          obtain ⟨v2, cs4⟩ := p2
          dsimp only at h
          cases h5 : expectChar '/' cs4 with
          | none => rw [h5] at h; exact absurd h (by simp)
          | some cs5 =>
            rw [h5] at h
            dsimp only at h
            cases h6 : scanInt cs5 with
            | none => rw [h6] at h; exact absurd h (by simp)
            | some p3 =>
              rw [h6] at h
              obtain ⟨v3, cs6⟩ := p3
              dsimp only at h
              simp only [Option.some.injEq, Prod.mk.injEq] at h
              obtain ⟨rfl, -, -⟩ := h
              exact scanInt_bounds cs1 _ cs2 h2

/-- The Go check `uint64(start) == offset` equals `start = offset` exactly,
for an `int64` start and an offset below `2^63`. -/
theorem uint64OfInt_eq_iff (s : Int) (n : Nat)
    (hs1 : int64Min ≤ s) (hs2 : s ≤ int64Max) (hn : n < 2 ^ 63) :
    uint64OfInt s = n ↔ s = (n : Int) := by
  unfold uint64OfInt U64 int64Min int64Max at *
  omega

/-! ### Theorems: protocol driver -/

/-- A server that answers 502 Bad Gateway to every request. -/
def serverAlways502 : Nat → Request → ServerReply := fun _ _ =>
  ServerReply.ok { status := 502, contentLength := 7, contentRange := "", body := [], interrupt := false }

/-- C2 evaluation: against a server answering 502 to every request, the
session terminates with the plain bad-gateway error after exactly one
request — the retry state is untouched and the retry-budget-exceeded
error never arises, because the loop returns every `runInner` error
immediately instead of branching on retryability. -/
theorem always502_one_request_no_retry :
    (runLoop 3 freshDownloader serverAlways502).2 = Except.error DLError.badGateway ∧
    (runLoop 3 freshDownloader serverAlways502).1.requests = 1 ∧
    (runLoop 3 freshDownloader serverAlways502).1.retry = DefaultRetryParameters ∧
    DLError.badGateway ≠ DLError.retryExceeded ∧
    DefaultRetryParameters.MaxRetries + 1 = 6 := by
  exact ⟨rfl, rfl, rfl, by decide, by decide⟩

/-- A server that declares a zero content length on the first response and
serves one byte before interrupting, then answers a plain 200 thereafter. -/
def serverDecl0 : Nat → Request → ServerReply := fun n _ =>
  if n == 0 then
    ServerReply.ok { status := 200, contentLength := 0, contentRange := "", body := [7], interrupt := true }
  else
    ServerReply.ok { status := 200, contentLength := 5, contentRange := "", body := [8], interrupt := false }

/-- C3 counterexample: when the first response declares content length 0
and is interrupted after one byte, the second attempt is a resume request
(`Range` at offset 1) that the server answers with status 200 — not 206 —
yet the session does not terminate with an error: it completes
successfully, because the 206 requirement is gated on a nonzero recorded
content length, not on the committed offset. -/
theorem resume_non206_accepted_when_length_unrecorded :
    (runLoop 3 freshDownloader serverDecl0).2 = Except.ok () ∧
    (runLoop 3 freshDownloader serverDecl0).1.reqLog.map Request.range = [none, some 1] ∧
    serverDecl0 1 { headers := [], range := some 1 } =
      ServerReply.ok { status := 200, contentLength := 5, contentRange := "", body := [8], interrupt := false } ∧
    (200 : Nat) ≠ 206 := by
  exact ⟨rfl, rfl, rfl, by decide⟩

/-- C3 (amended): when a nonzero content length has been recorded, a
resume attempt (committed offset > 0) answered with any status other than
206 terminates the session at once with that error — the bad-gateway
error for a 502, the non-retryable unexpected-status error otherwise —
without calling `Wait` (the retry state is unchanged) and after exactly
one more request. -/
theorem resume_non206_fails_fast (d : Downloader) (server : Nat → Request → ServerReply)
    (resp : ServerResponse) (fuel : Nat)
    (hcl : d.contentLength ≠ 0) (hcnt : 0 < d.count)
    (hresp : server d.requests (buildRequest d) = ServerReply.ok resp)
    (h206 : resp.status ≠ 206) :
    (runLoop (fuel + 1) d server).2 =
      Except.error (if resp.status = 502 then DLError.badGateway
        else DLError.subsequentStatus resp.status) ∧
    (runLoop (fuel + 1) d server).1.retry = d.retry ∧
    (runLoop (fuel + 1) d server).1.requests = d.requests + 1 ∧
    (buildRequest d).range = some d.count := by
  have hr : runInner d server = runInnerCore d (buildRequest d) (ServerReply.ok resp) := by
    unfold runInner; rw [hresp]
  by_cases h502 : resp.status = 502
  · have hcore : runInnerCore d (buildRequest d) (ServerReply.ok resp) =
        ({ d with requests := d.requests + 1, reqLog := d.reqLog ++ [buildRequest d] },
          Except.error DLError.badGateway) := by
      unfold runInnerCore
      simp [h502]
    simp only [runLoop, hr, hcore]
    simp [h502, buildRequest, hcnt]
  · have hcore : runInnerCore d (buildRequest d) (ServerReply.ok resp) =
        ({ d with requests := d.requests + 1, reqLog := d.reqLog ++ [buildRequest d] },
          Except.error (DLError.subsequentStatus resp.status)) := by
      unfold runInnerCore
      simp [h502, hcl, h206]
    simp only [runLoop, hr, hcore]
    simp [h502, buildRequest, hcnt]

/-- Concrete input for the C3 witness: one byte committed, length 3
recorded, and a server that answers 404 to everything. -/
def resumeD1 : Downloader :=
  { headers := []
    count := 1
    dest := [5]
    hashed := [5]
    contentLength := 3
    retry := DefaultRetryParameters
    finalFuncs := []
    requests := 1
    reqLog := [] }

def server404 : Nat → Request → ServerReply := fun _ _ =>
  ServerReply.ok { status := 404, contentLength := 3, contentRange := "", body := [], interrupt := false }

/-- C3 witness. -/
theorem resume_non206_fails_fast_witness :
    (resumeD1.contentLength ≠ 0 ∧ 0 < resumeD1.count ∧ (404 : Nat) ≠ 206) ∧
    ((runLoop 1 resumeD1 server404).2 =
      Except.error (if (404 : Nat) = 502 then DLError.badGateway
        else DLError.subsequentStatus 404) ∧
     (runLoop 1 resumeD1 server404).1.retry = resumeD1.retry ∧
     (runLoop 1 resumeD1 server404).1.requests = resumeD1.requests + 1 ∧
     (buildRequest resumeD1).range = some resumeD1.count) :=
  ⟨⟨by decide, by decide, by decide⟩,
    resume_non206_fails_fast resumeD1 server404
      { status := 404, contentLength := 3, contentRange := "", body := [], interrupt := false }
      0 (by decide) (by decide) rfl (by decide)⟩

/-- C4: on a 206 resume response (with a nonzero recorded content length
and fewer than `2^63` committed bytes), the driver parses the
Content-Range header with `bytes <start>-<end>/<total>`; an unparseable
header is a non-retryable failure, a parsed header is accepted — the open
body is returned — exactly when `start` is the requested offset, `end` is
the recorded content length minus one and `total` is the recorded content
length, and any mismatch is a non-retryable failure. -/
theorem resume_content_range_validation (d : Downloader) (server : Nat → Request → ServerReply)
    (resp : ServerResponse)
    (hcl : d.contentLength ≠ 0) (hcnt : d.count < 2 ^ 63)
    (hresp : server d.requests (buildRequest d) = ServerReply.ok resp)
    (h206 : resp.status = 206) :
    (parseContentRange (lowerString resp.contentRange) = none →
      (runInner d server).2 = Except.error DLError.parseRange ∧
      DLError.parseRange.isNonRetryable = true) ∧
    (∀ s e t, parseContentRange (lowerString resp.contentRange) = some (s, e, t) →
      ((s = (d.count : Int) ∧ e = d.contentLength - 1 ∧ t = d.contentLength) →
        (runInner d server).2 = Except.ok resp) ∧
      (¬(s = (d.count : Int) ∧ e = d.contentLength - 1 ∧ t = d.contentLength) →
        ∃ er, (runInner d server).2 = Except.error er ∧ er.isNonRetryable = true)) := by
  have h502 : ¬(resp.status = 502) := by omega
  have hr : runInner d server = runInnerCore d (buildRequest d) (ServerReply.ok resp) := by
    unfold runInner; rw [hresp]
  rw [hr]
  unfold runInnerCore
  simp only [h502, if_false, hcl, if_false, h206]
  constructor
  · intro hp
    rw [hp]
    exact ⟨rfl, rfl⟩
  · intro s e t hp
    rw [hp]
    have hbounds := parseContentRange_start_bounds _ _ _ _ hp
    have hiff := uint64OfInt_eq_iff s d.count hbounds.1 hbounds.2 hcnt
    constructor
    · rintro ⟨hs, he, ht⟩
      have hu : uint64OfInt s = d.count := hiff.mpr hs
      simp [hu, he, ht]
    · intro hne
      by_cases hu : uint64OfInt s = d.count
      · have hs : s = (d.count : Int) := hiff.mp hu
        by_cases he : e = d.contentLength - 1
        · by_cases ht : t = d.contentLength
          · exact absurd ⟨hs, he, ht⟩ hne
          · exact ⟨DLError.rangeTotal (d.contentLength - 1) t, by simp [hu, he, ht], rfl⟩
        · exact ⟨DLError.rangeEnd (d.contentLength - 1) e, by simp [hu, he], rfl⟩
      · exact ⟨DLError.rangeStart d.count s, by simp [hu], rfl⟩

/-- Concrete input for the C4 witness: offset 1, recorded length 3. -/
def server206 : Nat → Request → ServerReply := fun _ _ =>
  ServerReply.ok
    { status := 206
      contentLength := 3
      contentRange := "bytes 1-2/3"
      body := [9, 9]
      interrupt := false }

/-- C4 witness: the canonical well-formed header at the right offset is
accepted. -/
theorem resume_content_range_validation_witness :
    (resumeD1.contentLength ≠ 0 ∧ resumeD1.count < 2 ^ 63) ∧
    (parseContentRange (lowerString "bytes 1-2/3") = some (1, 2, 3)) ∧
    (∀ s e t, parseContentRange (lowerString "bytes 1-2/3") = some (s, e, t) →
      ((s = (resumeD1.count : Int) ∧ e = resumeD1.contentLength - 1 ∧
          t = resumeD1.contentLength) →
        (runInner resumeD1 server206).2 = Except.ok
          { status := 206, contentLength := 3, contentRange := "bytes 1-2/3",
            body := [9, 9], interrupt := false }) ∧
      (¬(s = (resumeD1.count : Int) ∧ e = resumeD1.contentLength - 1 ∧
          t = resumeD1.contentLength) →
        ∃ er, (runInner resumeD1 server206).2 = Except.error er ∧
          er.isNonRetryable = true)) :=
  ⟨⟨by decide, by decide⟩, by decide,
    (resume_content_range_validation resumeD1 server206
      { status := 206, contentLength := 3, contentRange := "bytes 1-2/3",
        body := [9, 9], interrupt := false }
      (by decide) (by decide) rfl rfl).2⟩

/-- C5 counterexample: a 502 answer to the very first request (offset 0,
no recorded length) is a non-OK status that is NOT treated as a
non-retryable failure — it surfaces as the plain bad-gateway error — and
the declared content length (7 here) is not recorded. -/
theorem first_attempt_502_not_nonretryable :
    (runInner freshDownloader serverAlways502).2 = Except.error DLError.badGateway ∧
    DLError.badGateway.isNonRetryable = false ∧
    (runInner freshDownloader serverAlways502).1.contentLength = 0 ∧
    (502 : Nat) ≠ 200 := by
  exact ⟨rfl, rfl, rfl, by decide⟩

/-- C5 (amended): every request carries the `Range: bytes=<offset>-`
header exactly when the committed offset is positive; on the very first
attempt (offset 0, no recorded length) the driver issues a plain GET with
the configured headers, and — provided the status is not 502, which is
returned earlier as a retryable bad-gateway error — records the declared
content length as the session's content length and treats any non-OK
status as a non-retryable failure. -/
theorem first_attempt_plain_get (d : Downloader) (server : Nat → Request → ServerReply)
    (resp : ServerResponse)
    (hcnt : d.count = 0) (hcl : d.contentLength = 0)
    (hresp : server d.requests (buildRequest d) = ServerReply.ok resp)
    (h502 : resp.status ≠ 502) :
    (∀ d' : Downloader,
      (buildRequest d').range = if 0 < d'.count then some d'.count else none) ∧
    (buildRequest d).range = none ∧
    (buildRequest d).headers = d.headers ∧
    (runInner d server).1.contentLength = resp.contentLength ∧
    (resp.status = 200 → (runInner d server).2 = Except.ok resp) ∧
    (resp.status ≠ 200 →
      (runInner d server).2 = Except.error (DLError.firstStatus resp.status) ∧
      (DLError.firstStatus resp.status).isNonRetryable = true) := by
  have hr : runInner d server = runInnerCore d (buildRequest d) (ServerReply.ok resp) := by
    unfold runInner; rw [hresp]
  rw [hr]
  unfold runInnerCore
  simp only [h502, if_false, hcl, if_true]
  refine ⟨fun d' => rfl, by simp [buildRequest, hcnt], rfl, ?_, ?_, ?_⟩
  · split <;> rfl
  · intro h200
    simp [h200]
  · intro h200
    exact ⟨by simp [h200], rfl⟩

/-- Concrete first-attempt input for the C5 witness. -/
def serverPlain200 : Nat → Request → ServerReply := fun _ _ =>
  ServerReply.ok { status := 200, contentLength := 2, contentRange := "", body := [4, 5], interrupt := false }

/-- C5 witness. -/
theorem first_attempt_plain_get_witness :
    (freshDownloader.count = 0 ∧ freshDownloader.contentLength = 0 ∧ (200 : Nat) ≠ 502) ∧
    ((buildRequest freshDownloader).range = none ∧
     (runInner freshDownloader serverPlain200).1.contentLength = 2 ∧
     ((200 : Nat) = 200 → (runInner freshDownloader serverPlain200).2 = Except.ok
        { status := 200, contentLength := 2, contentRange := "", body := [4, 5], interrupt := false })) :=
  ⟨⟨rfl, rfl, by decide⟩,
    let h := first_attempt_plain_get freshDownloader serverPlain200
      { status := 200, contentLength := 2, contentRange := "", body := [4, 5], interrupt := false }
      rfl rfl rfl (by decide)
    ⟨h.2.1, h.2.2.2.1, h.2.2.2.2.1⟩⟩

/-! ### Theorems: whole-download correctness (C1) -/

/-- The conversion `uint64OfInt` is the identity on in-range naturals. -/
theorem uint64OfInt_coe (n : Nat) (h : n < U64) : uint64OfInt (n : Int) = n := by
  unfold uint64OfInt U64 at *
  omega

/-- On the first-read branch with an OK status, `runInner` accepts the
response and records the declared content length. -/
theorem runInner_first_ok (d : Downloader) (server : Nat → Request → ServerReply)
    (resp : ServerResponse)
    (hcl : d.contentLength = 0)
    (hresp : server d.requests (buildRequest d) = ServerReply.ok resp)
    (h200 : resp.status = 200) :
    runInner d server =
      ({ d with contentLength := resp.contentLength
                requests := d.requests + 1
                reqLog := d.reqLog ++ [buildRequest d] }, Except.ok resp) := by
  unfold runInner
  rw [hresp]
  unfold runInnerCore
  have h502 : ¬(resp.status = 502) := by omega
  simp [h502, hcl, h200]

/-- On the resume branch, `runInner` accepts a 206 response whose parsed
Content-Range passes all three validations. -/
theorem runInner_resume_ok (d : Downloader) (server : Nat → Request → ServerReply)
    (resp : ServerResponse) (s e t : Int)
    (hcl : d.contentLength ≠ 0)
    (hresp : server d.requests (buildRequest d) = ServerReply.ok resp)
    (h206 : resp.status = 206)
    (hp : parseContentRange (lowerString resp.contentRange) = some (s, e, t))
    (hs : uint64OfInt s = d.count)
    (he : e = d.contentLength - 1)
    (ht : t = d.contentLength) :
    runInner d server =
      ({ d with requests := d.requests + 1
                reqLog := d.reqLog ++ [buildRequest d] }, Except.ok resp) := by
  unfold runInner
  rw [hresp]
  unfold runInnerCore
  have h502 : ¬(resp.status = 502) := by omega
  simp [h502, hcl, h206, hp, hs, he, ht]

/-- The loop invariant tying the downloader state to the resource: the
destination holds exactly the first `count` bytes, the hashers have seen
exactly the destination bytes, and the recorded content length is the
resource length (or still zero before any byte was requested). -/
def GoodState (resource : List Nat) (d : Downloader) : Prop :=
  d.dest = resource.take d.count ∧
  d.count ≤ resource.length ∧
  d.hashed = d.dest ∧
  (d.contentLength = (resource.length : Int) ∨ (d.contentLength = 0 ∧ d.count = 0))

/-- Writing a served segment `(resource.drop count).take k` preserves the
invariant (with the content length already recorded). -/
theorem goodState_writeBytes (resource : List Nat) (d : Downloader) (k : Nat)
    (hdest : d.dest = resource.take d.count)
    (hcnt : d.count ≤ resource.length)
    (hhash : d.hashed = d.dest)
    (hcl : d.contentLength = (resource.length : Int)) :
    GoodState resource (writeBytes d ((resource.drop d.count).take k)) := by
  unfold GoodState writeBytes
  have hlen : ((resource.drop d.count).take k).length = min k (resource.length - d.count) := by
    simp [List.length_take, List.length_drop]
  refine ⟨?_, ?_, ?_, Or.inl hcl⟩
  · by_cases hk : k ≤ resource.length - d.count
    · have hmin : min k (resource.length - d.count) = k := by omega
      simp only [hlen, hmin, hdest]
      exact (List.take_add resource d.count k).symm
    · have hdk : (resource.drop d.count).length ≤ k := by
        simp [List.length_drop]; omega
      have h1 : (resource.drop d.count).take k = resource.drop d.count :=
        List.take_of_length_le hdk
      have hmin : min k (resource.length - d.count) = resource.length - d.count := by omega
      simp only [hlen, hmin, hdest, h1, List.length_drop]
      rw [List.take_append_drop]
      have : d.count + (resource.length - d.count) = resource.length := by omega
      rw [this, List.take_length]
  · simp only [hlen]; omega
  · simp only [hhash]

/-- A server that behaves like a faithful HTTP server for `resource`: a
plain GET is answered 200 with the declared total length and the full
body (or a prefix when the copy is interrupted); an in-range resume
request is answered 206 with a Content-Range that parses to the exact
requested window and the remaining body (or a prefix of it when
interrupted). -/
def FaithfulServer (resource : List Nat) (server : Nat → Request → ServerReply) : Prop :=
  ∀ n req,
    (req.range = none →
      ∃ resp, server n req = ServerReply.ok resp ∧
        resp.status = 200 ∧
        resp.contentLength = (resource.length : Int) ∧
        (resp.interrupt = true → ∃ k, resp.body = resource.take k) ∧
        (resp.interrupt = false → resp.body = resource)) ∧
    (∀ off, req.range = some off → off ≤ resource.length →
      ∃ resp, server n req = ServerReply.ok resp ∧
        resp.status = 206 ∧
        parseContentRange (lowerString resp.contentRange) =
          some ((off : Int), (resource.length : Int) - 1, (resource.length : Int)) ∧
        (resp.interrupt = true → ∃ k, resp.body = (resource.drop off).take k) ∧
        (resp.interrupt = false → resp.body = resource.drop off))

/-- Against a faithful server, any run of the driver loop that terminates
successfully has committed exactly the resource bytes, and the hashers
have seen exactly those bytes. -/
theorem runLoop_faithful_exact (resource : List Nat) (server : Nat → Request → ServerReply)
    (hfs : FaithfulServer resource server) (hlen : resource.length < U64) :
    ∀ fuel d d', GoodState resource d →
      runLoop fuel d server = (d', Except.ok ()) →
      d'.dest = resource ∧ d'.hashed = resource := by
  intro fuel
  induction fuel with
  | zero =>
    intro d d' _ hrun
    simp only [runLoop, Prod.mk.injEq] at hrun
    exact absurd hrun.2 (by simp)
  | succ fuel ih =>
    intro d d' hgs hrun
    obtain ⟨hdest, hcnt, hhash, hcl⟩ := hgs
    by_cases hczero : d.count = 0
    · -- plain GET (no Range header)
      have hreq : (buildRequest d).range = none := by
        simp [buildRequest, hczero]
      obtain ⟨resp, hresp, hst, hclresp, hint, hfull⟩ :=
        (hfs d.requests (buildRequest d)).1 hreq
      by_cases hcl0 : d.contentLength = 0
      · -- first-read branch: the response is accepted, length recorded
        have hinner := runInner_first_ok d server resp hcl0 hresp hst
        simp only [runLoop, hinner] at hrun
        have hd1 : GoodState resource
            { d with contentLength := resp.contentLength
                     requests := d.requests + 1
                     reqLog := d.reqLog ++ [buildRequest d] } := by
          exact ⟨hdest, hcnt, hhash, Or.inl hclresp⟩
        by_cases hi : resp.interrupt = true
        · obtain ⟨k, hbody⟩ := hint hi
          have hbody' : resp.body = (resource.drop d.count).take k := by
            rw [hbody, hczero, List.drop_zero]
          rw [hbody'] at hrun
          simp only [hi, if_true] at hrun
          have hgs2 := goodState_writeBytes resource
            { d with contentLength := resp.contentLength
                     requests := d.requests + 1
                     reqLog := d.reqLog ++ [buildRequest d] } k
            hdest hcnt hhash hclresp
          obtain ⟨g1, g2, g3, g4⟩ := hgs2
          split at hrun
          · refine ih _ _ ?_ hrun
            exact ⟨g1, g2, g3, g4⟩
          · exact absurd (congrArg Prod.snd hrun) (by simp)
          · exact absurd (congrArg Prod.snd hrun) (by simp)
        · have hbody := hfull (by simpa using hi)
          simp only [hi, if_false] at hrun
          have hd2 : d' = writeBytes
              { d with contentLength := resp.contentLength
                       requests := d.requests + 1
                       reqLog := d.reqLog ++ [buildRequest d] } resp.body :=
            (congrArg Prod.fst hrun).symm
          rw [hd2]
          unfold writeBytes
          constructor
          · simp only [hbody, hdest, hczero, List.take_zero, List.nil_append]
          · simp only [hbody, hhash, hdest, hczero, List.take_zero, List.nil_append]
      · -- a recorded nonzero length with offset 0: the 206 requirement
        -- fails against the 200 answer and the loop returns an error
        have h206 : resp.status ≠ 206 := by omega
        have h502 : ¬(resp.status = 502) := by omega
        have hinner : runInner d server =
            ({ d with requests := d.requests + 1, reqLog := d.reqLog ++ [buildRequest d] },
             Except.error (DLError.subsequentStatus resp.status)) := by
          unfold runInner
          rw [hresp]
          unfold runInnerCore
          simp [h502, hcl0, h206]
        simp only [runLoop, hinner, Prod.mk.injEq] at hrun
        exact absurd hrun.2 (by simp)
    · -- resume request at a positive offset
      have hclen : d.contentLength = (resource.length : Int) := by
        rcases hcl with h | ⟨h1, h2⟩
        · exact h
        · exact absurd h2 hczero
      have hlenpos : 0 < resource.length := by omega
      have hclne : d.contentLength ≠ 0 := by
        rw [hclen]
        exact Nat.cast_ne_zero.mpr hlenpos.ne'
      have hreq : (buildRequest d).range = some d.count := by
        simp [buildRequest, Nat.pos_of_ne_zero hczero]
      obtain ⟨resp, hresp, hst, hpr, hint, hfull⟩ :=
        (hfs d.requests (buildRequest d)).2 d.count hreq hcnt
      have hinner := runInner_resume_ok d server resp
        ((d.count : Int)) ((resource.length : Int) - 1) ((resource.length : Int))
        hclne hresp hst hpr
        (uint64OfInt_coe d.count (by omega))
        (by rw [hclen]) (by rw [hclen])
      simp only [runLoop, hinner] at hrun
      have hd1 : GoodState resource
          { d with requests := d.requests + 1, reqLog := d.reqLog ++ [buildRequest d] } :=
        ⟨hdest, hcnt, hhash, Or.inl hclen⟩
      by_cases hi : resp.interrupt = true
      · obtain ⟨k, hbody⟩ := hint hi
        rw [hbody] at hrun
        simp only [hi, if_true] at hrun
        have hgs2 := goodState_writeBytes resource
          { d with requests := d.requests + 1, reqLog := d.reqLog ++ [buildRequest d] } k
          hdest hcnt hhash hclen
        obtain ⟨g1, g2, g3, g4⟩ := hgs2
        split at hrun
        · refine ih _ _ ?_ hrun
          exact ⟨g1, g2, g3, g4⟩
        · exact absurd (congrArg Prod.snd hrun) (by simp)
        · exact absurd (congrArg Prod.snd hrun) (by simp)
      · have hbody := hfull (by simpa using hi)
        simp only [hi, if_false] at hrun
        have hd2 : d' = writeBytes
            { d with requests := d.requests + 1, reqLog := d.reqLog ++ [buildRequest d] }
            resp.body :=
          (congrArg Prod.fst hrun).symm
        rw [hd2]
        unfold writeBytes
        constructor
        · simp only [hbody, hdest]
          exact List.take_append_drop d.count resource
        · simp only [hbody, hhash, hdest]
          exact List.take_append_drop d.count resource

/-- C1: for every download that completes successfully against a faithful
server — whatever the interruption pattern — the destination holds the
resource bytes exactly once (no duplication, no gaps), the hasher
attached by `WithExpectedHash` (never reset between attempts) has seen
exactly that sequence, and therefore its digest equals the digest of the
resource hashed in one pass. -/
theorem download_exact_bytes_and_hash (resource : List Nat)
    (server : Nat → Request → ServerReply)
    (hashFn : List Nat → List Nat) (expected : List Nat)
    (hfs : FaithfulServer resource server) (hlen : resource.length < U64)
    (fuel : Nat) (d' : Downloader)
    (hrun : runLoop fuel (withExpectedHash hashFn expected freshDownloader) server =
      (d', Except.ok ())) :
    d'.dest = resource ∧ d'.hashed = resource ∧ hashFn d'.hashed = hashFn resource := by
  have hgs : GoodState resource (withExpectedHash hashFn expected freshDownloader) :=
    ⟨rfl, Nat.zero_le _, rfl, Or.inr ⟨rfl, rfl⟩⟩
  have h := runLoop_faithful_exact resource server hfs hlen fuel _ d' hgs hrun
  exact ⟨h.1, h.2, by rw [h.2]⟩

/-- A concrete three-byte resource for the C1 witness. -/
def demoResource : List Nat := [1, 2, 3]

/-- A concrete faithful server: the first attempt serves two bytes and
interrupts; every further attempt serves the correctly-ranged remainder. -/
def demoServer : Nat → Request → ServerReply := fun n req =>
  match req.range with
  | none => ServerReply.ok
      { status := 200
        contentLength := 3
        contentRange := ""
        body := if n == 0 then [1, 2] else [1, 2, 3]
        interrupt := n == 0 }
  | some off => ServerReply.ok
      { status := 206
        contentLength := 3
        contentRange :=
          if off == 1 then "bytes 1-2/3"
          else if off == 2 then "bytes 2-2/3"
          else if off == 3 then "bytes 3-2/3"
          else "bytes 0-2/3"
        body := demoResource.drop off
        interrupt := false }

theorem demoServer_faithful : FaithfulServer demoResource demoServer := by
  intro n req
  constructor
  · intro hr
    refine ⟨{ status := 200, contentLength := 3, contentRange := "",
              body := if n == 0 then [1, 2] else [1, 2, 3], interrupt := n == 0 },
            ?_, rfl, rfl, ?_, ?_⟩
    · simp [demoServer, hr]
    · intro hi
      dsimp only at hi
      exact ⟨2, by simp [hi]; decide⟩
    · intro hi
      dsimp only at hi
      simp [hi, demoResource]
  · intro off hr hle
    refine ⟨{ status := 206, contentLength := 3,
              contentRange :=
                if off == 1 then "bytes 1-2/3"
                else if off == 2 then "bytes 2-2/3"
                else if off == 3 then "bytes 3-2/3"
                else "bytes 0-2/3",
              body := demoResource.drop off, interrupt := false },
            ?_, rfl, ?_, ?_, ?_⟩
    · simp [demoServer, hr]
    · have hle3 : off ≤ 3 := by simpa [demoResource] using hle
      interval_cases off <;> decide
    · intro hi
      simp at hi
    · intro _
      rfl

/-- The configured downloader of the C1 witness: identity digest over the
byte stream, expected digest `[1, 2, 3]`. -/
def demoD0 : Downloader := withExpectedHash (fun l => l) [1, 2, 3] freshDownloader

/-- C1 witness: with one mid-copy interruption after two bytes, the
session resumes, completes, and commits exactly `[1, 2, 3]` to destination
and hasher. -/
theorem download_exact_bytes_and_hash_witness :
    demoResource.length < U64 ∧
    runLoop 3 demoD0 demoServer = ((runLoop 3 demoD0 demoServer).1, Except.ok ()) ∧
    ((runLoop 3 demoD0 demoServer).1.dest = demoResource ∧
     (runLoop 3 demoD0 demoServer).1.hashed = demoResource ∧
     (fun l : List Nat => l) (runLoop 3 demoD0 demoServer).1.hashed =
       (fun l : List Nat => l) demoResource) :=
  ⟨by decide, rfl,
    download_exact_bytes_and_hash demoResource demoServer (fun l => l) [1, 2, 3]
      demoServer_faithful (by decide) 3 _ rfl⟩

/-! ### Theorems: finalization pipeline and option handling -/

/-- Checks that all pass contribute nothing to `runChecks`. -/
theorem runChecks_append_of_none (pre l : List (Option DLError))
    (hpre : ∀ x ∈ pre, x = none) :
    runChecks (pre ++ l) = runChecks l := by
  induction pre with
  | nil => rfl
  | cons x rest ih =>
    have hx : x = none := hpre x (List.mem_cons_self x rest)
    subst hx
    exact ih (fun y hy => hpre y (List.mem_cons_of_mem _ hy))

/-- C9: finalization runs the registered checks in registration order —
the first failing check's error becomes the session's result and the
remaining checks are irrelevant to it; with no failing check the result
is success; and the expected-hash check fails exactly when the computed
digest differs from the expected one, carrying both digests. -/
theorem finalization_first_error_and_hash_check
    (pre rest : List (Option DLError)) (e : DLError)
    (hpre : ∀ x ∈ pre, x = none)
    (hashFn : List Nat → List Nat) (expected hashed : List Nat) :
    runChecks (pre ++ some e :: rest) = some e ∧
    runChecks pre = none ∧
    (∀ d : Downloader, d.finalFuncs.map (fun f => f d.hashed) = pre ++ some e :: rest →
      finalize d = Except.error e) ∧
    (∀ d : Downloader, d.finalFuncs.map (fun f => f d.hashed) = pre →
      finalize d = Except.ok ()) ∧
    (expectedHashCheck hashFn expected hashed = none ↔ hashFn hashed = expected) ∧
    (hashFn hashed ≠ expected →
      expectedHashCheck hashFn expected hashed =
        some (DLError.hashMismatch expected (hashFn hashed))) := by
  have h1 : runChecks (pre ++ some e :: rest) = some e := by
    rw [runChecks_append_of_none pre _ hpre]
    rfl
  have h2 : runChecks pre = none := by
    have := runChecks_append_of_none pre [] hpre
    simpa using this
  refine ⟨h1, h2, ?_, ?_, ?_, ?_⟩
  · intro d hd
    unfold finalize
    rw [hd, h1]
  · intro d hd
    unfold finalize
    rw [hd, h2]
  · unfold expectedHashCheck
    constructor
    · intro h
      by_cases hh : hashFn hashed = expected
      · exact hh
      · simp [hh] at h
    · intro hh
      simp [hh]
  · intro hh
    unfold expectedHashCheck
    simp [hh]

/-- C9 witness: one passing check before a failing one, with a mismatched
digest. -/
theorem finalization_first_error_and_hash_check_witness :
    (∀ x ∈ ([none] : List (Option DLError)), x = none) ∧
    (runChecks ([none] ++ some DLError.canceled :: [some DLError.doRequest]) =
      some DLError.canceled ∧
     runChecks [none] = none ∧
     (expectedHashCheck (fun l => l) [9] [1] = none ↔ ([1] : List Nat) = [9]) ∧
     (([1] : List Nat) ≠ [9] →
      expectedHashCheck (fun l => l) [9] [1] = some (DLError.hashMismatch [9] [1]))) :=
  ⟨by simp,
    let h := finalization_first_error_and_hash_check [none] [some DLError.doRequest]
      DLError.canceled (by simp) (fun l => l) [9] [1]
    ⟨h.1, h.2.1, h.2.2.2.2.1, h.2.2.2.2.2⟩⟩

/-- C10: a `nil` entry in the options list of `DownloadURL` is skipped:
the resulting configuration, and therefore the whole session result, is
identical to the same call with the entry omitted (and applying options
is a total function — no panic). -/
theorem nil_option_skipped (pre post : List (Option (Downloader → Downloader)))
    (fuel : Nat) (server : Nat → Request → ServerReply) :
    applyOpts (pre ++ none :: post) freshDownloader =
      applyOpts (pre ++ post) freshDownloader ∧
    downloadURL fuel server (pre ++ none :: post) = downloadURL fuel server (pre ++ post) := by
  have h : ∀ d, applyOpts (pre ++ none :: post) d = applyOpts (pre ++ post) d := by
    intro d
    unfold applyOpts
    rw [List.foldl_append, List.foldl_append, List.foldl_cons]
  exact ⟨h _, by unfold downloadURL; rw [h]⟩

end DlPipe
